import Mathlib

/-!
Verification of the weighted hierarchical tree model of
`src/app.py` (classes `JsonTreeItem` / `JsonTreeModel`).

Shallow embedding conventions:
* Parsed JSON documents (the result of Python's `json.load`) are modelled by
  the `JValue` type; Python dicts become association lists (keys unique).
* Python floats are IEEE-754 binary64 values; every such value is a dyadic
  rational, so a float is represented here by its exact value in `ℚ`, and
  each float operation is the exact rational operation followed by `fl`,
  the correctly-rounded (round-to-nearest, ties-to-even) projection onto
  the binary64 grid — exactly the semantics of CPython's `/` and `+` on
  floats.  The 2-decimal formatting `f"{x:.2f}"` is modelled by `format2`
  applied to the double's exact value, rounding half-to-even, which is what
  CPython's float formatting computes.  Thus `1/3 + 1/3 + 1/3` is exactly
  `1.0` while ten additions of `1/10` fall short of `1.0`, and
  `f"{1/40:.2f}"` is `"0.03"`, as in the program.
* Raised Python exceptions (`KeyError` in `loadJsonData`, `KeyError` /
  `TypeError` in `to_json`) are modelled by `Except` error results.
* The in-place mutation of `self.rootItem` is modelled by explicit state
  passing: `loadJsonData` returns the root item that the model holds after
  the call (the partially built one when an exception escapes), together
  with the success/failure status.
-/

set_option allowUnsafeReducibility true in
attribute [semireducible] Rat.add Rat.mul Rat.sub Rat.inv Rat.div Rat.ofScientific

namespace Geest

/-- Font colors used by the program; `Qt.green` marks a balanced factor,
`Qt.red` an unbalanced one, `Qt.black` is the constructor default. -/
inductive Color where
| black
| red
| green
deriving DecidableEq

/-- Parsed JSON values, as produced by Python's `json.load`.  Objects are
association lists with unique keys (insertion order preserved, as for
Python dicts). -/
inductive JValue where
| str (s : String)
| num (q : ℚ)
| jbool (b : Bool)
| null
| arr (xs : List JValue)
| obj (fields : List (String × JValue))

/-- A JSON object: the payload of `JValue.obj`. -/
abbrev JObj := List (String × JValue)

/-- Python dict lookup `o[k]` / `o.get(k)` on an association list. -/
def lookupKey : JObj → String → Option JValue
| [], _ => none
| (k, v) :: rest, key => if k = key then some v else lookupKey rest key

/-- `JsonTreeItem` (src/app.py:47-86): a tree node holding a row of cell
values (`itemData`), a role tag, a font color (default black) and an
ordered list of children. -/
inductive Item where
| mk (itemData : List JValue) (role : String) (fontColor : Color)
    (childItems : List Item)

def Item.itemData : Item → List JValue
| .mk d _ _ _ => d

def Item.role : Item → String
| .mk _ r _ _ => r

def Item.fontColor : Item → Color
| .mk _ _ c _ => c

def Item.childItems : Item → List Item
| .mk _ _ _ ch => ch

/-- `JsonTreeItem.appendChild` (src/app.py:57-58). -/
def Item.appendChild : Item → Item → Item
| .mk d r c ch, child => .mk d r c (ch ++ [child])

/-- `JsonTreeItem.childCount` (src/app.py:63-64). -/
def Item.childCount (it : Item) : Nat := it.childItems.length

/-- `JsonTreeItem.data` (src/app.py:69-72): the cell value at `column`,
`None` when the column is out of range. -/
def Item.data (it : Item) (column : Nat) : Option JValue :=
  it.itemData[column]?

/-- `JsonTreeItem.setData` (src/app.py:74-78): writes the cell at `column`
and reports whether the write happened (false when out of range). -/
def Item.setData : Item → Nat → JValue → Item × Bool
| .mk d r c ch, column, value =>
  if column < d.length then (.mk (d.set column value) r c ch, true)
  else (.mk d r c ch, false)

/-- `JsonTreeModel.update_font_color` (src/app.py:183-186), restricted to
its effect on the item (the emitted layout signal is presentation-only). -/
def Item.withColor : Item → Color → Item
| .mk d r _ ch, c => .mk d r c ch

/-- A raised Python exception, carrying the missing dict key for the
`KeyError`s that `loadJsonData` can raise. -/
inductive PyErr where
| keyError (k : String)
deriving DecidableEq

/-- Python `str.title()` for ASCII text: uppercase a letter that does not
follow a letter, lowercase one that does. -/
def pyTitleGo : Bool → List Char → List Char
| _, [] => []
| prevAlpha, c :: cs =>
  (if prevAlpha then c.toLower else c.toUpper) :: pyTitleGo c.isAlpha cs

/-- Python `str.title()` (used on dimension names at load). -/
def pyTitle (s : String) : String := ⟨pyTitleGo false s.toList⟩

/-- Python `str.lower()` (used on dimension names at save). -/
def pyLower (s : String) : String := s.toLower

/-- Floor of a rational, computed on numerator and denominator. -/
def qfloor (q : ℚ) : ℤ := q.num.fdiv q.den

/-- Round a rational to the nearest integer, ties to even — the rounding
Python applies when formatting a float with `:.2f`. -/
def roundHalfEven (q : ℚ) : ℤ :=
  let f := qfloor q
  let frac := q - (f : ℚ)
  if frac < 1/2 then f
  else if 1/2 < frac then f + 1
  else if f % 2 = 0 then f else f + 1

/-- Two-digit rendering of a value below 100. -/
def natTwoDigits (r : Nat) : String :=
  (if r < 10 then "0" else "") ++ toString r

/-- Python `f"{q:.2f}"` on the exact value `q`. -/
def format2 (q : ℚ) : String :=
  let k := roundHalfEven (q * 100)
  (if k < 0 then "-" else "")
    ++ toString (k.natAbs / 100) ++ "." ++ natTwoDigits (k.natAbs % 100)

/-- Number of binary digits of a natural number (`bitLen 1 = 1`,
`bitLen 3 = 2`), computed with an explicit fuel so that the kernel can
evaluate it. -/
def bitLenAux : Nat → Nat → Nat
| 0, _ => 0
| fuel + 1, n => if n ≤ 1 then 0 else bitLenAux fuel (n / 2) + 1

/-- Number of binary digits: `2 ^ (bitLen n - 1) ≤ n < 2 ^ bitLen n` for
`n ≥ 1`. -/
def bitLen (n : Nat) : Nat :=
  (if n = 0 then 0 else 1) + bitLenAux n n

/-- Two to an integer power, as a rational. -/
def pow2 (e : ℤ) : ℚ :=
  if 0 ≤ e then mkRat (2 ^ e.toNat) 1 else mkRat 1 (2 ^ (-e).toNat)

/-- The binade of a positive rational: the `e` with `2^e ≤ q < 2^(e+1)`,
located from the bit lengths of numerator and denominator and fixed up by
comparison. -/
def ilog2q (q : ℚ) : ℤ :=
  let e0 : ℤ := (bitLen q.num.natAbs : ℤ) - (bitLen q.den : ℤ)
  if q < pow2 (e0 - 1) then e0 - 2
  else if q < pow2 e0 then e0 - 1
  else if q < pow2 (e0 + 1) then e0
  else e0 + 1

/-- Round a positive rational to the nearest IEEE-754 binary64 value
(53-bit significand, ties to even, subnormal quantum clamped at
`2^-1074`; overflow to infinity is not modelled — unreachable for the
values this program computes). -/
def flPos (q : ℚ) : ℚ :=
  let e := ilog2q q
  let shift : ℤ := if e - 52 < -1074 then -1074 else e - 52
  mkRat (roundHalfEven (q * pow2 (-shift))) 1 * pow2 shift

/-- Round an exact rational to the nearest IEEE-754 binary64 value — the
projection CPython applies after every float operation. -/
def fl (q : ℚ) : ℚ :=
  if q = 0 then 0
  else if q < 0 then -flPos (-q)
  else flPos q

/-- IEEE binary64 addition: the exact sum, correctly rounded. -/
def flAdd (a b : ℚ) : ℚ := fl (a + b)

/-- Read a run of decimal digits: accumulated value, digit count, rest. -/
def readDigitsAcc : ℕ → ℕ → List Char → ℕ × ℕ × List Char
| acc, cnt, [] => (acc, cnt, [])
| acc, cnt, c :: cs =>
  if c.isDigit then readDigitsAcc (10 * acc + (c.toNat - 48)) (cnt + 1) cs
  else (acc, cnt, c :: cs)

/-- The mantissa of a decimal literal: `digits [. digits]`, at least one
digit in total. -/
def parseUnsigned (cs : List Char) : Option (ℚ × List Char) :=
  match readDigitsAcc 0 0 cs with
  | (ip, ic, r1) =>
    match r1 with
    | '.' :: r2 =>
      (match readDigitsAcc 0 0 r2 with
      | (fp, fc, r3) =>
        if ic = 0 && fc = 0 then none
        else some (mkRat ip 1 + mkRat fp (10 ^ fc), r3))
    | _ => if ic = 0 then none else some (mkRat ip 1, r1)

/-- Exponent digits after an optional sign. -/
def parseExpDigits (sign : ℤ) (r : List Char) : Option (ℤ × List Char) :=
  match readDigitsAcc 0 0 r with
  | (v, c, rest) => if c = 0 then none else some (sign * v, rest)

/-- Signed exponent. -/
def parseSignedExp : List Char → Option (ℤ × List Char)
| '+' :: r => parseExpDigits 1 r
| '-' :: r => parseExpDigits (-1) r
| r => parseExpDigits 1 r

/-- Optional `e`/`E` exponent part. -/
def parseExpPart : List Char → Option (ℤ × List Char)
| 'e' :: r => parseSignedExp r
| 'E' :: r => parseSignedExp r
| cs => some (0, cs)

/-- Ten to an integer power, as a rational. -/
def pow10 (e : ℤ) : ℚ :=
  if 0 ≤ e then mkRat (10 ^ e.toNat) 1 else mkRat 1 (10 ^ (-e).toNat)

/-- Unsigned decimal literal with optional exponent; the whole input must
be consumed. -/
def pyFloatChars (cs : List Char) : Option ℚ :=
  match parseUnsigned cs with
  | none => none
  | some (m, r1) =>
    match parseExpPart r1 with
    | none => none
    | some (e, r2) => if r2 = [] then some (m * pow10 e) else none

/-- Python `float(s)` on a string: strips surrounding whitespace, then
parses an optionally signed decimal literal; `none` models the raised
`ValueError`.  (`inf`/`nan` spellings and `_` separators are outside the
inputs this program meets and are not modelled.)  The value is kept as the
exact rational rather than the nearest IEEE double. -/
def pyFloat (s : String) : Option ℚ :=
  let cs :=
    ((s.toList.dropWhile Char.isWhitespace).reverse.dropWhile
      Char.isWhitespace).reverse
  match cs with
  | '+' :: r => pyFloatChars r
  | '-' :: r => (pyFloatChars r).map (fun q => -q)
  | r => pyFloatChars r

/-- Python `float(value)` on a decoded JSON value: numbers and booleans
convert, strings are parsed, `None`/lists/dicts raise `TypeError`
(modelled as `none`). -/
def pyFloatJ : JValue → Option ℚ
| .str s => pyFloat s
| .num q => some q
| .jbool b => some (if b then 1 else 0)
| _ => none

/-- The FIRST `JsonTreeModel.setData` (src/app.py:149-173), restricted to
the `Qt.EditRole` path: column 2 is parsed as a float and stored with
2-decimal formatting, a parse failure leaves the item unchanged and
returns false; other columns store the value directly.  In Python this
definition is dead code: the second definition of the same method name
(src/app.py:301-305) replaces it at class-creation time. -/
def setData_first (item : Item) (column : Nat) (value : JValue) : Item × Bool :=
  if column = 2 then
    match pyFloatJ value with
    | some q => item.setData column (JValue.str (format2 q))
    | none => (item, false)
  else item.setData column value

/-- The SECOND `JsonTreeModel.setData` (src/app.py:301-305) — the
definition in effect at runtime.  For `Qt.EditRole` it stores the value
verbatim in the cell: no number validation, no 2-decimal formatting, and
no recomputation of the owning factor's weight. -/
def modelSetData (isEditRole : Bool) (item : Item) (column : Nat)
    (value : JValue) : Item × Bool :=
  if isEditRole then item.setData column value else (item, false)

/-- Editing the weight cell (column 2) of the `i`-th child of `factor`
through the model's effective `setData`.  The Python model mutates the
child in place through `index.internalPointer()`; functionally, the edited
child replaces the old one in the parent's `childItems` while the parent's
own cells and color are untouched. -/
def editChildWeight (factor : Item) (i : Nat) (value : JValue) :
    Item × Bool :=
  match factor with
  | .mk d r c ch =>
    match ch[i]? with
    | none => (.mk d r c ch, false)
    | some l =>
      let res := modelSetData true l 2 value
      (.mk d r c (ch.set i res.1), res.2)

/-- `JsonTreeModel.clear_layer_weightings` (src/app.py:235-243): every
child's weight cell and the factor's weight cell are set to "0.00" and the
factor is colored red (unbalanced). -/
def clear_layer_weightings : Item → Item
| .mk d r c ch =>
  let ch2 := ch.map (fun l => (l.setData 2 (JValue.str "0.00")).1)
  let f1 := ((Item.mk d r c ch2).setData 2 (JValue.str "0.00")).1
  f1.withColor Color.red

/-- `JsonTreeModel.auto_assign_layer_weightings` (src/app.py:245-257):
no-op for a factor with zero children; otherwise every child's weight cell
becomes `1/n` formatted to 2 decimals, the factor's weight cell is set to
the literal string "1.00", and the factor is colored green (balanced). -/
def auto_assign_layer_weightings : Item → Item
| .mk d r c ch =>
  if ch.length = 0 then .mk d r c ch
  else
    let w := format2 (fl (mkRat 1 ch.length))
    let ch2 := ch.map (fun l => (l.setData 2 (JValue.str w)).1)
    let f1 := ((Item.mk d r c ch2).setData 2 (JValue.str "1.00")).1
    f1.withColor Color.green

/-- The item created by `JsonTreeModel.add_layer` (src/app.py:265-269):
three cells only — no stored attribute dict in column 4. -/
def newLayerItem : Item :=
  .mk [JValue.str "New Layer", JValue.str "🔴", JValue.str "1.00"] "layer"
    Color.black []

/-- `JsonTreeModel.add_layer` (src/app.py:265-269). -/
def add_layer (factor : Item) : Item := factor.appendChild newLayerItem

/-- A factor entry of the document: `factor.get("name")` and
`factor.get("layers", [])`; each layer entry is an arbitrary JSON
object. -/
structure JFactor where
  name : Option String
  layers : List JObj

/-- A dimension entry of the document. -/
structure JDimension where
  name : Option String
  factors : List JFactor

/-- A parsed document: `json_data.get("dimensions", [])`. -/
structure JDoc where
  dimensions : List JDimension

/-- The layer item built at src/app.py:129-136: name cell from
`layer["layer"]`, red-dot status, equal-split weight formatted to
2 decimals, the raw `layer.get("weighting", "")` value, and the whole
layer object in column 4. -/
def mkLayerItem (w : ℚ) (l : JObj) : Item :=
  .mk [(lookupKey l "layer").getD JValue.null, JValue.str "🔴",
       JValue.str (format2 w), (lookupKey l "weighting").getD (JValue.str ""),
       JValue.obj l] "layer" Color.black []

/-- `factor_weighting_sum` (src/app.py:122,138): starts at 0.0 and adds
`layer_weighting` once per appended layer, with IEEE binary64
addition. -/
def sumLoop (w : ℚ) (ls : List JObj) : ℚ :=
  ls.foldl (fun a _ => flAdd a w) 0

/-- The layer loop of `loadJsonData` (src/app.py:124-137).  `facItem` is
the factor item being filled; a layer without a "layer" key raises
`KeyError` before the item is created, leaving the layers appended so far
in place. -/
def loadLayersAcc (w : ℚ) (facItem : Item) :
    List JObj → Item × Except PyErr Unit
| [] => (facItem, .ok ())
| l :: ls =>
  match lookupKey l "layer" with
  | none => (facItem, .error (.keyError "layer"))
  | some _ => loadLayersAcc w (facItem.appendChild (mkLayerItem w l)) ls

/-- The factor loop of `loadJsonData` (src/app.py:111-145).  `dimItem` is
the dimension item being filled; a factor without a name raises
`KeyError("name")`; a factor with zero layers is appended untouched
(weight cell left "" and color left black); otherwise its layers are
loaded, its weight cell is set to the formatted `factor_weighting_sum`,
and it is colored green exactly when that raw sum equals 1.0. -/
def loadFacsAcc (dimItem : Item) : List JFactor → Item × Except PyErr Unit
| [] => (dimItem, .ok ())
| f :: fs =>
  match f.name with
  | none => (dimItem, .error (.keyError "name"))
  | some nm =>
    let facItem0 : Item :=
      .mk [JValue.str nm, JValue.str "🔴", JValue.str ""] "factor"
        Color.black []
    if f.layers.length = 0 then
      loadFacsAcc (dimItem.appendChild facItem0) fs
    else
      let w : ℚ := fl (mkRat 1 f.layers.length)
      match loadLayersAcc w facItem0 f.layers with
      | (facItem1, .error e) => (dimItem.appendChild facItem1, .error e)
      | (facItem1, .ok ()) =>
        let s := sumLoop w f.layers
        let facItem2 := (facItem1.setData 2 (JValue.str (format2 s))).1
        let facItem3 :=
          facItem2.withColor (if s = 1 then Color.green else Color.red)
        loadFacsAcc (dimItem.appendChild facItem3) fs

/-- The dimension loop of `loadJsonData` (src/app.py:104-145): a dimension
without a name raises `KeyError("name")`; otherwise its item (title-cased
name) is appended to the root — in Python the append happens before the
factors are processed and the item is filled in place, so on failure the
partially filled dimension is already attached. -/
def loadDimsAcc (root : Item) : List JDimension → Item × Except PyErr Unit
| [] => (root, .ok ())
| d :: ds =>
  match d.name with
  | none => (root, .error (.keyError "name"))
  | some nm =>
    let dimItem0 : Item :=
      .mk [JValue.str (pyTitle nm), JValue.str "🔴", JValue.str ""]
        "dimension" Color.black []
    match loadFacsAcc dimItem0 d.factors with
    | (dimItem, .error e) => (root.appendChild dimItem, .error e)
    | (dimItem, .ok ()) => loadDimsAcc (root.appendChild dimItem) ds

/-- The fresh root `loadJsonData` installs before building
(src/app.py:101). -/
def emptyRoot : Item :=
  .mk [JValue.str "GEEST2", JValue.str "Status", JValue.str "Weight"] "root"
    Color.black []

/-- `JsonTreeModel.loadJsonData` (src/app.py:98-147): returns the root
item the model holds after the call together with the outcome.  The root
is replaced by a fresh item before any document entry is read, so on
failure the result is the partially built tree, not the previous one. -/
def loadJsonData (doc : JDoc) : Item × Except PyErr Unit :=
  loadDimsAcc emptyRoot doc.dimensions

/-- `loadJsonData` as a transition on the model's state: the previously
held root is discarded unconditionally (src/app.py:101 reassigns
`self.rootItem` before the build loop), so the result does not depend on
it. -/
def loadIntoModel (_prev : Item) (doc : JDoc) : Item × Except PyErr Unit :=
  loadJsonData doc

/-- The fixed attribute keys `to_json` reads from a layer's stored
attribute dict (src/app.py:207-227). -/
def fixedLayerKeys : List String :=
  ["Text", "Default Weighting", "Use Aggregate", "Default Index Score",
   "Index Score", "Use default Idex Score", "Rasterise Raster",
   "Rasterise Polygon", "Rasterise Polyline", "Rasterise Point",
   "Default Buffer Distances", "Use Buffer point", "Default pixel",
   "Use Create Grid", "Default Mode", "Default Measurement",
   "Default Increments", "Use Mode of Travel", "source", "indicator",
   "query"]

/-- `item.data(4)[k]` in `to_json`: raises (`TypeError`/`KeyError`) unless
column 4 holds a dict containing `k`. -/
def getItemAttr (d : List JValue) (k : String) : Except Unit JValue :=
  match (d[4]? : Option JValue) with
  | some (JValue.obj o) =>
    match lookupKey o k with
    | some v => .ok v
    | none => .error ()
  | _ => .error ()

/-- The attribute fields of the layer dict built by `to_json`
(src/app.py:207-227), in source order; the first missing key raises. -/
def layerFields (d : List JValue) :
    List String → Except Unit (List (String × JValue))
| [] => .ok []
| k :: ks =>
  match getItemAttr d k with
  | .error e => .error e
  | .ok v =>
    match layerFields d ks with
    | .error e => .error e
    | .ok rest => .ok ((k, v) :: rest)

mutual

/-- `recurse_tree` inside `JsonTreeModel.to_json` (src/app.py:191-228):
dispatches on the item's role; an item with none of the three roles
returns Python `None` (modelled `ok none`), which the surrounding list
comprehension embeds as `null`.  The dimension branch calls `.lower()` on
the name cell (raising unless it is a string); the layer branch reads the
fixed keys out of column 4. -/
def recurse_tree : Item → Except Unit (Option JValue)
| .mk d r _ ch =>
  if r = "dimension" then
    match (d[0]? : Option JValue) with
    | some (JValue.str s) =>
      (match recurse_children ch with
      | .error e => .error e
      | .ok js =>
        .ok (some (.obj [("name", .str (pyLower s)), ("factors", .arr js)])))
    | _ => .error ()
  else if r = "factor" then
    match recurse_children ch with
    | .error e => .error e
    | .ok js =>
      .ok (some (.obj [("name", (d[0]?).getD JValue.null),
                       ("layers", .arr js)]))
  else if r = "layer" then
    match layerFields d fixedLayerKeys with
    | .error e => .error e
    | .ok fields =>
      .ok (some (.obj (("layer", (d[0]?).getD JValue.null) :: fields)))
  else .ok none

/-- A list comprehension `[recurse_tree(child) for child in items]`:
left-to-right, the first raise propagates, `None` results embed as
`null`. -/
def recurse_children : List Item → Except Unit (List JValue)
| [] => .ok []
| x :: xs =>
  match recurse_tree x with
  | .error e => .error e
  | .ok v =>
    match recurse_children xs with
    | .error e => .error e
    | .ok vs => .ok (v.getD JValue.null :: vs)

end

/-- `JsonTreeModel.to_json` (src/app.py:188-233). -/
def to_json (root : Item) : Except Unit JValue :=
  match recurse_children root.childItems with
  | .error e => .error e
  | .ok js => .ok (.obj [("dimensions", .arr js)])

/-- Appending a list of children one by one. -/
def appendAll (it : Item) (xs : List Item) : Item :=
  xs.foldl Item.appendChild it

/-- A layer entry `loadJsonData` accepts: a flat object with a "layer"
key (historical shape (b)). -/
def layerDecodeOK (l : JObj) : Bool := (lookupKey l "layer").isSome

/-- A factor entry `loadJsonData` accepts. -/
def facDecodeOK (f : JFactor) : Bool :=
  f.name.isSome && f.layers.all layerDecodeOK

/-- A dimension entry `loadJsonData` accepts. -/
def dimDecodeOK (d : JDimension) : Bool :=
  d.name.isSome && d.factors.all facDecodeOK

/-- Documents on which `loadJsonData` runs to completion. -/
def decodeOK (doc : JDoc) : Bool := doc.dimensions.all dimDecodeOK

/-- A layer object carrying every attribute key `to_json` reads. -/
def layerKeysOK (l : JObj) : Bool :=
  fixedLayerKeys.all (fun k => (lookupKey l k).isSome)

/-- Documents that both load and re-encode without error. -/
def encodeWF (doc : JDoc) : Bool :=
  decodeOK doc &&
    doc.dimensions.all (fun d => d.factors.all (fun f =>
      f.layers.all layerKeysOK))

/-- The factor item a successful `loadJsonData` produces for a factor
entry (proved equal to the code's output in `loadFacsAcc_ok`): zero-layer
factors keep an empty weight cell and the default black color; factors
with layers get the 2-decimal format of the float-accumulated
`factor_weighting_sum` as their weight cell, and are green exactly when
that float sum equals 1.0 (it does for 3 layers, but not for 10). -/
def loadedFactor (f : JFactor) : Item :=
  if f.layers.length = 0 then
    .mk [JValue.str (f.name.getD ""), JValue.str "🔴", JValue.str ""]
      "factor" Color.black []
  else
    let w := fl (mkRat 1 f.layers.length)
    let s := sumLoop w f.layers
    .mk [JValue.str (f.name.getD ""), JValue.str "🔴",
         JValue.str (format2 s)] "factor"
      (if s = 1 then Color.green else Color.red)
      (f.layers.map (mkLayerItem w))

/-- The dimension item a successful `loadJsonData` produces. -/
def loadedDim (d : JDimension) : Item :=
  .mk [JValue.str (pyTitle (d.name.getD "")), JValue.str "🔴", JValue.str ""]
    "dimension" Color.black (d.factors.map loadedFactor)

/-- The root a successful `loadJsonData` produces. -/
def loadedRoot (doc : JDoc) : Item :=
  .mk [JValue.str "GEEST2", JValue.str "Status", JValue.str "Weight"] "root"
    Color.black (doc.dimensions.map loadedDim)

/-- The layer dict `to_json` emits: the layer name plus exactly the fixed
attribute keys, in source order, with the stored values. -/
def layerOut (l : JObj) : JValue :=
  .obj (("layer", (lookupKey l "layer").getD JValue.null) ::
    fixedLayerKeys.map (fun k => (k, (lookupKey l k).getD JValue.null)))

/-- The factor dict `to_json` emits. -/
def facOut (f : JFactor) : JValue :=
  .obj [("name", JValue.str (f.name.getD "")),
        ("layers", .arr (f.layers.map layerOut))]

/-- The dimension dict `to_json` emits: the loaded (title-cased) name
lowercased again. -/
def dimOut (d : JDimension) : JValue :=
  .obj [("name", JValue.str (pyLower (pyTitle (d.name.getD "")))),
        ("factors", .arr (d.factors.map facOut))]

/-- The document `to_json` emits for a freshly loaded `doc`. -/
def reencode (doc : JDoc) : JValue :=
  .obj [("dimensions", .arr (doc.dimensions.map dimOut))]

/-- The layer item stores a column-4 attribute dict containing every
fixed key `to_json` reads. -/
def hasAllFixedKeys (it : Item) : Bool :=
  match it.data 4 with
  | some (JValue.obj o) => fixedLayerKeys.all (fun k => (lookupKey o k).isSome)
  | _ => false

/-- The name cell of the first dimension of a root (projection used to
tell two concrete trees apart). -/
def firstDimName (t : Item) : Option JValue :=
  (t.childItems.headD emptyRoot).data 0

/-- Concrete factor entry: "Water Access" with 3 layers and no explicit
weights (spec §8 scenario 1). -/
def facW : JFactor :=
  ⟨some "Water Access",
   [[("layer", JValue.str "L1")], [("layer", JValue.str "L2")],
    [("layer", JValue.str "L3")]]⟩

/-- Concrete document holding `facW`. -/
def docThreeLayers : JDoc := ⟨[⟨some "test", [facW]⟩]⟩

/-- The factor item loaded from `docThreeLayers`. -/
def loadedThreeFac : Item :=
  (((loadJsonData docThreeLayers).1.childItems.headD
    emptyRoot).childItems.headD emptyRoot)

/-- Concrete document whose single layer entry is in historical shape (a):
a single-key object `{layerName: {...}}`, with no "layer" key. -/
def docShapeA : JDoc :=
  ⟨[⟨some "contextual", [⟨some "F", [[("Water points", JValue.obj [])]]⟩]⟩]⟩

/-- Concrete document whose single layer has only the identifying "layer"
key — a valid shape-(b) document with an empty attribute set. -/
def docBareLayer : JDoc :=
  ⟨[⟨some "d", [⟨some "f", [[("layer", JValue.str "L")]]⟩]⟩]⟩

/-- A layer object carrying the "layer" name, a "weighting", and every
fixed attribute key. -/
def fullLayer : JObj :=
  ("layer", JValue.str "L") :: ("weighting", JValue.num 2) ::
    fixedLayerKeys.map (fun k => (k, JValue.str "v"))

/-- Concrete document whose single layer is `fullLayer`. -/
def docFull : JDoc := ⟨[⟨some "Transport", [⟨some "F", [fullLayer]⟩]⟩]⟩

/-- Concrete loaded-style layer item with weight cell "0.33". -/
def layThird (nm : String) : Item :=
  .mk [JValue.str nm, JValue.str "🔴", JValue.str "0.33", JValue.str "",
       JValue.obj []] "layer" Color.black []

/-- Concrete 2-layer factor at 0.33/0.33 with derived cell "0.66". -/
def facTwoThirds : Item :=
  .mk [JValue.str "F", JValue.str "🔴", JValue.str "0.66"] "factor"
    Color.black [layThird "L1", layThird "L2"]

/-- Concrete layer item with weight cell "0.10". -/
def layTenth (nm : String) : Item :=
  .mk [JValue.str nm, JValue.str "🔴", JValue.str "0.10"] "layer"
    Color.black []

/-- Concrete 3-layer factor at 0.10/0.10/0.10 with derived cell "0.30". -/
def facThreeTenths : Item :=
  .mk [JValue.str "F", JValue.str "🔴", JValue.str "0.30"] "factor"
    Color.red [layTenth "A", layTenth "B", layTenth "C"]

/-- Concrete document loaded to set up a previous tree. -/
def goodDoc : JDoc := ⟨[⟨some "alpha", []⟩]⟩

/-- The previously loaded tree for the atomicity scenario. -/
def prevRoot : Item := (loadJsonData goodDoc).1

/-- Concrete malformed document: its dimension is named but its factor
entry has no "name". -/
def badDoc : JDoc := ⟨[⟨some "beta", [⟨none, []⟩]⟩]⟩

/-- Concrete complete layer item as `loadJsonData` would store it. -/
def layFull : Item :=
  .mk [JValue.str "L", JValue.str "🔴", JValue.str "1.00", JValue.str "",
       JValue.obj fullLayer] "layer" Color.black []

/-- Concrete factor item holding `layFull`. -/
def facFull : Item :=
  .mk [JValue.str "F", JValue.str "🔴", JValue.str "1.00"] "factor"
    Color.green [layFull]

/-- Concrete dimension item holding `facFull`. -/
def dimFull : Item :=
  .mk [JValue.str "d", JValue.str "🔴", JValue.str ""] "dimension"
    Color.black [facFull]

/-- Concrete encodable root. -/
def rootFull : Item := emptyRoot.appendChild dimFull

/-- The document `to_json` produces for `rootFull`. -/
def jFull : JValue :=
  match to_json rootFull with
  | .ok v => v
  | .error _ => JValue.null

/-- Concrete factor item containing a layer created by `add_layer`. -/
def facWithNewLayer : Item :=
  .mk [JValue.str "F", JValue.str "🔴", JValue.str ""] "factor"
    Color.black [newLayerItem]

/-- Concrete dimension item holding `facWithNewLayer`. -/
def dimWithNewLayer : Item :=
  .mk [JValue.str "d", JValue.str "🔴", JValue.str ""] "dimension"
    Color.black [facWithNewLayer]

/-- Concrete root containing an `add_layer`-created layer. -/
def rootWithNewLayer : Item := emptyRoot.appendChild dimWithNewLayer

/-- Concrete factor entry with 10 layers: the float accumulation of ten
copies of `fl(1/10)` falls short of 1.0, so the program colors the loaded
factor red even though the cell formats to "1.00". -/
def facTen : JFactor :=
  ⟨some "T", List.replicate 10 [("layer", JValue.str "x")]⟩

theorem appendAll_mk (d : List JValue) (r : String) (c : Color)
    (xs : List Item) :
    ∀ ch, appendAll (.mk d r c ch) xs = .mk d r c (ch ++ xs) := by
  induction xs with
  | nil => intro ch; simp [appendAll]
  | cons x xs ih =>
    intro ch
    have h := ih (ch ++ [x])
    simp only [appendAll, List.foldl_cons, Item.appendChild] at h ⊢
    rw [h]
    simp

theorem loadLayersAcc_ok (w : ℚ) (ls : List JObj)
    (h : ls.all layerDecodeOK = true) :
    ∀ acc, loadLayersAcc w acc ls =
      (appendAll acc (ls.map (mkLayerItem w)), .ok ()) := by
  induction ls with
  | nil => intro acc; simp [loadLayersAcc, appendAll]
  | cons l ls ih =>
    intro acc
    simp only [List.all_cons, Bool.and_eq_true] at h
    obtain ⟨h1, h2⟩ := h
    obtain ⟨v, hv⟩ := Option.isSome_iff_exists.mp h1
    simp only [loadLayersAcc, hv]
    rw [ih h2]
    simp [appendAll]

theorem loadFacsAcc_ok (fs : List JFactor)
    (h : fs.all facDecodeOK = true) :
    ∀ acc, loadFacsAcc acc fs =
      (appendAll acc (fs.map loadedFactor), .ok ()) := by
  induction fs with
  | nil => intro acc; simp [loadFacsAcc, appendAll]
  | cons f fs ih =>
    intro acc
    simp only [List.all_cons, Bool.and_eq_true, facDecodeOK] at h
    obtain ⟨⟨hn, hl⟩, h2⟩ := h
    obtain ⟨nm, hnm⟩ := Option.isSome_iff_exists.mp hn
    by_cases hz : f.layers.length = 0
    · have hlf : loadedFactor f =
          .mk [JValue.str nm, JValue.str "🔴", JValue.str ""] "factor"
            Color.black [] := by
        simp [loadedFactor, hz, hnm]
      simp only [loadFacsAcc, hnm, hz, if_pos]
      rw [ih h2]
      simp only [List.map_cons, appendAll, List.foldl_cons, hlf]
    · have hlf : loadedFactor f =
          .mk [JValue.str nm, JValue.str "🔴",
               JValue.str (format2 (sumLoop (fl (mkRat 1 f.layers.length))
                 f.layers))] "factor"
            (if sumLoop (fl (mkRat 1 f.layers.length)) f.layers = 1 then
              Color.green else Color.red)
            (f.layers.map (mkLayerItem (fl (mkRat 1 f.layers.length)))) := by
        simp [loadedFactor, hz, hnm]
      simp only [loadFacsAcc, hnm]
      rw [if_neg hz]
      rw [loadLayersAcc_ok _ _ hl, appendAll_mk]
      have hset :
          ∀ v : JValue,
          (Item.setData
            (.mk [JValue.str nm, JValue.str "🔴", JValue.str ""] "factor"
              Color.black
              (([] : List Item) ++
                f.layers.map (mkLayerItem (fl (mkRat 1 f.layers.length))))) 2
            v).1 =
          .mk [JValue.str nm, JValue.str "🔴", v] "factor"
            Color.black
            (f.layers.map (mkLayerItem (fl (mkRat 1 f.layers.length)))) := by
        intro v
        simp [Item.setData]
      simp only [hset, ih h2, List.map_cons, appendAll, List.foldl_cons,
        hlf, Item.withColor]

theorem loadDimsAcc_ok (ds : List JDimension)
    (h : ds.all dimDecodeOK = true) :
    ∀ root, loadDimsAcc root ds =
      (appendAll root (ds.map loadedDim), .ok ()) := by
  induction ds with
  | nil => intro root; simp [loadDimsAcc, appendAll]
  | cons d ds ih =>
    intro root
    simp only [List.all_cons, Bool.and_eq_true, dimDecodeOK] at h
    obtain ⟨⟨hn, hf⟩, h2⟩ := h
    obtain ⟨nm, hnm⟩ := Option.isSome_iff_exists.mp hn
    have hld : loadedDim d =
        .mk [JValue.str (pyTitle nm), JValue.str "🔴", JValue.str ""]
          "dimension" Color.black (d.factors.map loadedFactor) := by
      simp [loadedDim, hnm]
    simp only [loadDimsAcc, hnm]
    rw [loadFacsAcc_ok _ hf, appendAll_mk]
    simp only [List.nil_append]
    rw [ih h2]
    simp only [List.map_cons, appendAll, List.foldl_cons, hld]

theorem load_ok (doc : JDoc) (h : decodeOK doc = true) :
    loadJsonData doc = (loadedRoot doc, .ok ()) := by
  unfold loadJsonData
  rw [loadDimsAcc_ok _ h]
  simp [emptyRoot, appendAll_mk, loadedRoot]

theorem layerFields_ok (d : List JValue) (l : JObj)
    (h4 : d[4]? = some (JValue.obj l)) :
    ∀ ks, (∀ k ∈ ks, (lookupKey l k).isSome = true) →
      layerFields d ks =
        .ok (ks.map (fun k => (k, (lookupKey l k).getD JValue.null))) := by
  intro ks
  induction ks with
  | nil => intro _; simp [layerFields]
  | cons k ks ih =>
    intro hk
    have h1 := hk k (List.mem_cons_self k ks)
    obtain ⟨v, hv⟩ := Option.isSome_iff_exists.mp h1
    have h2 : ∀ k2 ∈ ks, (lookupKey l k2).isSome = true :=
      fun k2 hm => hk k2 (List.mem_cons_of_mem _ hm)
    simp only [layerFields, getItemAttr, h4, hv]
    rw [ih h2]
    simp [hv]

theorem recurse_layer_ok (w : ℚ) (l : JObj) (hk : layerKeysOK l = true) :
    recurse_tree (mkLayerItem w l) = .ok (some (layerOut l)) := by
  have hks : ∀ k ∈ fixedLayerKeys, (lookupKey l k).isSome = true :=
    List.all_eq_true.mp hk
  have hlf := layerFields_ok
    [(lookupKey l "layer").getD JValue.null, JValue.str "🔴",
     JValue.str (format2 w), (lookupKey l "weighting").getD (JValue.str ""),
     JValue.obj l] l rfl fixedLayerKeys hks
  simp only [mkLayerItem, recurse_tree, if_true]
  rw [hlf]
  simp [layerOut]

theorem recurse_layers_ok (w : ℚ) (ls : List JObj)
    (h : ls.all layerKeysOK = true) :
    recurse_children (ls.map (mkLayerItem w)) = .ok (ls.map layerOut) := by
  induction ls with
  | nil => simp [recurse_children]
  | cons l ls ih =>
    simp only [List.all_cons, Bool.and_eq_true] at h
    simp only [List.map_cons, recurse_children]
    rw [recurse_layer_ok w l h.1, ih h.2]
    simp

theorem recurse_factor_ok (f : JFactor)
    (hk : f.layers.all layerKeysOK = true) :
    recurse_tree (loadedFactor f) = .ok (some (facOut f)) := by
  by_cases hz : f.layers.length = 0
  · have hempty : f.layers = [] := List.length_eq_zero.mp hz
    simp only [loadedFactor, hz, if_pos]
    simp only [recurse_tree, if_true]
    simp [recurse_children, facOut, hempty]
  · simp only [loadedFactor]
    rw [if_neg hz]
    simp only [recurse_tree, if_true]
    rw [recurse_layers_ok _ _ hk]
    simp [facOut]

theorem recurse_factors_ok (fs : List JFactor)
    (h : fs.all (fun f => f.layers.all layerKeysOK) = true) :
    recurse_children (fs.map loadedFactor) = .ok (fs.map facOut) := by
  induction fs with
  | nil => simp [recurse_children]
  | cons f fs ih =>
    simp only [List.all_cons, Bool.and_eq_true] at h
    simp only [List.map_cons, recurse_children]
    rw [recurse_factor_ok f h.1, ih h.2]
    simp

theorem recurse_dim_ok (dm : JDimension)
    (hk : dm.factors.all (fun f => f.layers.all layerKeysOK) = true) :
    recurse_tree (loadedDim dm) = .ok (some (dimOut dm)) := by
  simp only [loadedDim, recurse_tree, if_true]
  simp only [List.getElem?_cons_zero]
  rw [recurse_factors_ok _ hk]
  simp [dimOut]

theorem recurse_dims_ok (ds : List JDimension)
    (h : ds.all (fun d => d.factors.all (fun f =>
      f.layers.all layerKeysOK)) = true) :
    recurse_children (ds.map loadedDim) = .ok (ds.map dimOut) := by
  induction ds with
  | nil => simp [recurse_children]
  | cons d ds ih =>
    simp only [List.all_cons, Bool.and_eq_true] at h
    simp only [List.map_cons, recurse_children]
    rw [recurse_dim_ok d h.1, ih h.2]
    simp

theorem to_json_loadedRoot (doc : JDoc)
    (h : doc.dimensions.all (fun d => d.factors.all (fun f =>
      f.layers.all layerKeysOK)) = true) :
    to_json (loadedRoot doc) = .ok (reencode doc) := by
  simp only [to_json, loadedRoot, Item.childItems]
  rw [recurse_dims_ok _ h]
  simp [reencode]

theorem recurse_children_error (x : Item)
    (he : recurse_tree x = .error ()) :
    ∀ ch, x ∈ ch → recurse_children ch = .error () := by
  intro ch
  induction ch with
  | nil => intro h; cases h
  | cons y ys ih =>
    intro hmem
    rcases List.mem_cons.mp hmem with h | h
    · subst h; simp [recurse_children, he]
    · cases hy : recurse_tree y with
      | error e => cases e; simp [recurse_children, hy]
      | ok v => simp [recurse_children, hy, ih h]

theorem recurse_children_ok_mem (x : Item) :
    ∀ ch js, recurse_children ch = .ok js → x ∈ ch →
      ∃ v, recurse_tree x = .ok v := by
  intro ch
  induction ch with
  | nil => intro js _ hx; cases hx
  | cons y ys ih =>
    intro js hok hx
    rcases List.mem_cons.mp hx with h | h
    · subst h
      cases hy : recurse_tree x with
      | error e => cases e; simp [recurse_children, hy] at hok
      | ok v => exact ⟨v, rfl⟩
    · cases hy : recurse_tree y with
      | error e => cases e; simp [recurse_children, hy] at hok
      | ok v =>
        cases hys : recurse_children ys with
        | error e => cases e; simp [recurse_children, hy, hys] at hok
        | ok vs => exact ih vs hys h

theorem layerFields_attr (d : List JValue) :
    ∀ ks fs, layerFields d ks = .ok fs →
      ∀ k ∈ ks, ∃ v, getItemAttr d k = .ok v := by
  intro ks
  induction ks with
  | nil => intro fs _ k hk; cases hk
  | cons k0 ks ih =>
    intro fs h k hk
    cases hg : getItemAttr d k0 with
    | error e => cases e; simp [layerFields, hg] at h
    | ok v =>
      cases hrest : layerFields d ks with
      | error e => cases e; simp [layerFields, hg, hrest] at h
      | ok rest =>
        rcases List.mem_cons.mp hk with h1 | h1
        · subst h1; exact ⟨v, hg⟩
        · exact ih rest hrest k h1

theorem recurse_layer_attrs (d : List JValue) (c : Color) (ch : List Item)
    (v : Option JValue)
    (hr : recurse_tree (.mk d "layer" c ch) = .ok v) :
    hasAllFixedKeys (.mk d "layer" c ch) = true := by
  simp only [recurse_tree, if_true] at hr
  cases hf : layerFields d fixedLayerKeys with
  | error e => cases e; rw [hf] at hr; simp at hr
  | ok fields =>
    have hks := layerFields_attr d fixedLayerKeys fields hf
    have hobj : ∃ o, d[4]? = some (JValue.obj o) := by
      obtain ⟨v0, hv0⟩ := hks "Text" (by decide)
      unfold getItemAttr at hv0
      cases h4 : (d[4]? : Option JValue) with
      | none => rw [h4] at hv0; simp at hv0
      | some jv =>
        cases jv with
        | obj o => exact ⟨o, rfl⟩
        | str s => rw [h4] at hv0; simp at hv0
        | num q => rw [h4] at hv0; simp at hv0
        | jbool b => rw [h4] at hv0; simp at hv0
        | null => rw [h4] at hv0; simp at hv0
        | arr xs => rw [h4] at hv0; simp at hv0
    obtain ⟨o, h4⟩ := hobj
    simp only [hasAllFixedKeys, Item.data, Item.itemData, h4]
    apply List.all_eq_true.mpr
    intro k hk2
    obtain ⟨vk, hvk⟩ := hks k hk2
    unfold getItemAttr at hvk
    rw [h4] at hvk
    have hred : (match lookupKey o k with
      | some v => (Except.ok v : Except Unit JValue)
      | none => Except.error ()) = Except.ok vk := hvk
    cases hlk : lookupKey o k with
    | none => rw [hlk] at hred; simp at hred
    | some v2 => simp

theorem recurse_error_dim_fac (d : List JValue) (r : String) (c : Color)
    (ch : List Item) (hrole : r = "dimension" ∨ r = "factor") (x : Item)
    (hx : x ∈ ch) (he : recurse_tree x = .error ()) :
    recurse_tree (.mk d r c ch) = .error () := by
  have hch := recurse_children_error x he ch hx
  rcases hrole with h | h
  · subst h
    simp only [recurse_tree, if_true]
    cases h0 : (d[0]? : Option JValue) with
    | none => simp [h0]
    | some jv =>
      cases jv with
      | str s => simp [h0, hch]
      | num q => simp [h0]
      | jbool b => simp [h0]
      | null => simp [h0]
      | arr xs => simp [h0]
      | obj o => simp [h0]
  · subst h
    simp only [recurse_tree, if_true]
    simp [hch]

theorem recurse_ok_children_dim_fac (d : List JValue) (r : String)
    (c : Color) (ch : List Item) (v : Option JValue)
    (hr : recurse_tree (.mk d r c ch) = .ok v)
    (hrole : r = "dimension" ∨ r = "factor") :
    ∃ js, recurse_children ch = .ok js := by
  rcases hrole with h | h
  · subst h
    simp only [recurse_tree, if_true] at hr
    cases h0 : (d[0]? : Option JValue) with
    | none => rw [h0] at hr; simp at hr
    | some jv =>
      cases jv with
      | str s =>
        rw [h0] at hr
        cases hch : recurse_children ch with
        | error e => cases e; rw [hch] at hr; simp at hr
        | ok js => exact ⟨js, rfl⟩
      | num q => rw [h0] at hr; simp at hr
      | jbool b => rw [h0] at hr; simp at hr
      | null => rw [h0] at hr; simp at hr
      | arr xs => rw [h0] at hr; simp at hr
      | obj o => rw [h0] at hr; simp at hr
  · subst h
    simp only [recurse_tree, if_true] at hr
    cases hch : recurse_children ch with
    | error e => cases e; rw [hch] at hr; simp at hr
    | ok js => exact ⟨js, rfl⟩

theorem layerFields_missing (d : List JValue) (l : JObj)
    (h4 : d[4]? = some (JValue.obj l)) :
    ∀ ks, (∃ k ∈ ks, lookupKey l k = none) →
      layerFields d ks = .error () := by
  intro ks
  induction ks with
  | nil =>
    intro h
    obtain ⟨k, hk, _⟩ := h
    cases hk
  | cons k0 ks ih =>
    intro h
    obtain ⟨k, hk, hnone⟩ := h
    rcases List.mem_cons.mp hk with h1 | h1
    · subst h1
      simp [layerFields, getItemAttr, h4, hnone]
    · cases hl0 : lookupKey l k0 with
      | none => simp [layerFields, getItemAttr, h4, hl0]
      | some v =>
        simp only [layerFields, getItemAttr, h4, hl0]
        simp [ih ⟨k, h1, hnone⟩]

theorem recurse_layer_missing (w : ℚ) (l : JObj)
    (hk : layerKeysOK l = false) :
    recurse_tree (mkLayerItem w l) = .error () := by
  have hmiss : ∃ k ∈ fixedLayerKeys, lookupKey l k = none := by
    unfold layerKeysOK at hk
    obtain ⟨k, hkmem, hfal⟩ := List.all_eq_false.mp hk
    cases hcase : lookupKey l k with
    | none => exact ⟨k, hkmem, hcase⟩
    | some v => rw [hcase] at hfal; simp at hfal
  have hlf := layerFields_missing
    [(lookupKey l "layer").getD JValue.null, JValue.str "🔴",
     JValue.str (format2 w), (lookupKey l "weighting").getD (JValue.str ""),
     JValue.obj l] l rfl fixedLayerKeys hmiss
  simp only [mkLayerItem, recurse_tree, if_true]
  rw [hlf]
  simp

theorem encode_error_of_missing (doc : JDoc) (dm : JDimension)
    (f : JFactor) (l : JObj) (hdm : dm ∈ doc.dimensions)
    (hf : f ∈ dm.factors) (hl : l ∈ f.layers)
    (hk : layerKeysOK l = false) :
    to_json (loadedRoot doc) = .error () := by
  have hne : f.layers.length ≠ 0 := by
    intro h0
    rw [List.length_eq_zero.mp h0] at hl
    cases hl
  have hlay := recurse_layer_missing (fl (mkRat 1 f.layers.length)) l hk
  have hmem : mkLayerItem (fl (mkRat 1 f.layers.length)) l ∈
      f.layers.map (mkLayerItem (fl (mkRat 1 f.layers.length))) :=
    List.mem_map_of_mem _ hl
  have hfac : recurse_tree (loadedFactor f) = .error () := by
    simp only [loadedFactor]
    rw [if_neg hne]
    exact recurse_error_dim_fac _ "factor" _ _ (Or.inr rfl) _ hmem hlay
  have hdim : recurse_tree (loadedDim dm) = .error () := by
    have hmem2 : loadedFactor f ∈ dm.factors.map loadedFactor :=
      List.mem_map_of_mem _ hf
    simp only [loadedDim]
    exact recurse_error_dim_fac _ "dimension" _ _ (Or.inl rfl) _ hmem2 hfac
  have hmem3 : loadedDim dm ∈ doc.dimensions.map loadedDim :=
    List.mem_map_of_mem _ hdm
  have hch :=
    recurse_children_error _ hdim (doc.dimensions.map loadedDim) hmem3
  unfold to_json
  simp only [loadedRoot, Item.childItems]
  rw [hch]

theorem fontColor_withColor (it : Item) (c : Color) :
    (it.withColor c).fontColor = c := by
  cases it; rfl

theorem setData_fontColor (it : Item) (col : Nat) (v : JValue) :
    ((it.setData col v).1).fontColor = it.fontColor := by
  obtain ⟨d, r, c, ch⟩ := it
  simp only [Item.setData]
  split <;> rfl

theorem setData_two (it : Item) (v : JValue) (h : 2 < it.itemData.length) :
    (it.setData 2 v).1.data 2 = some v ∧ (it.setData 2 v).2 = true := by
  obtain ⟨d, r, c, ch⟩ := it
  simp only [Item.itemData] at h
  simp only [Item.setData, if_pos h, Item.data, Item.itemData]
  exact ⟨List.getElem?_set_eq_of_lt v h, trivial⟩

set_option maxRecDepth 8000 in
/-- Fidelity anchors for the binary64 model at the inputs where exact
rational arithmetic would diverge from the program: ten float additions
of `fl(1/10)` give `(2^53 - 1)/2^53`, short of 1.0, so the loaded
10-layer factor is red (though its cell formats to "1.00"); and the
double nearest 1/40 lies above the 0.025 midpoint, so it formats to
"0.03" — matching CPython, where half-even rounding of the exact 1/40
would give "0.02". -/
theorem float_model_anchors :
    (loadedFactor facTen).fontColor = Color.red ∧
    (loadedFactor facTen).data 2 = some (JValue.str "1.00") ∧
    sumLoop (fl (mkRat 1 10)) facTen.layers =
      mkRat 9007199254740991 9007199254740992 ∧
    format2 (fl (mkRat 1 40)) = "0.03" ∧
    format2 (fl (mkRat 1 3)) = "0.33" :=
  ⟨rfl, rfl, by decide, by decide, by decide⟩

set_option maxRecDepth 8000 in
/-- Claim C1 is false on the code at the concrete 3-layer factor it names:
`loadJsonData` gives each layer the weight cell "0.33", but the factor's
derived weight cell is "1.00" — the 2-decimal format of the float
accumulation of the raw (unrounded) per-layer doubles, which for three
layers is exactly 1.0 — and the factor is classified balanced (green),
not "0.99" and Unbalanced as the claim states. -/
theorem C1_counterexample :
    (loadJsonData docThreeLayers).2 = Except.ok () ∧
    loadedThreeFac.data 2 = some (JValue.str "1.00") ∧
    loadedThreeFac.fontColor = Color.green ∧
    loadedThreeFac.childItems.map (fun l => l.data 2) =
      [some (JValue.str "0.33"), some (JValue.str "0.33"),
       some (JValue.str "0.33")] ∧
    ("1.00" : String) ≠ "0.99" ∧ Color.green ≠ Color.red :=
  ⟨rfl, rfl, rfl, rfl, by decide, by decide⟩

/-- Claim C1 (amended): for a factor entry with `n ≥ 1` well-formed layer
entries, load assigns each layer the weight cell `fl(1/n)` — the IEEE
double quotient — formatted to 2 decimals, and sets the factor's derived
weight cell to the 2-decimal format of the float-accumulated sum of those
raw per-layer doubles (not the sum of the rounded 2-decimal values),
classifying the factor balanced (green) exactly when that float sum
equals 1.0.  For 3 layers the float sum is exactly 1.0, giving "1.00" and
Balanced, not "0.99" and Unbalanced. -/
theorem C1_load_equal_split (dimItem : Item) (f : JFactor) (nm : String)
    (hname : f.name = some nm) (hlay : f.layers.all layerDecodeOK = true)
    (hn : f.layers.length ≠ 0) :
    loadFacsAcc dimItem [f] =
      (dimItem.appendChild (loadedFactor f), Except.ok ()) ∧
    (∀ li ∈ (loadedFactor f).childItems,
      li.data 2 =
        some (JValue.str (format2 (fl (mkRat 1 f.layers.length))))) ∧
    (loadedFactor f).data 2 =
      some (JValue.str (format2
        (sumLoop (fl (mkRat 1 f.layers.length)) f.layers))) ∧
    ((loadedFactor f).fontColor = Color.green ↔
      sumLoop (fl (mkRat 1 f.layers.length)) f.layers = 1) := by
  have hfd : facDecodeOK f = true := by simp [facDecodeOK, hname, hlay]
  have hall : ([f] : List JFactor).all facDecodeOK = true := by simp [hfd]
  have h1 := loadFacsAcc_ok [f] hall dimItem
  refine ⟨?_, ?_, ?_, ?_⟩
  · rw [h1]; simp [appendAll]
  · intro li hli
    simp only [loadedFactor] at hli
    rw [if_neg hn] at hli
    simp only [Item.childItems] at hli
    obtain ⟨l, _, rfl⟩ := List.mem_map.mp hli
    simp [mkLayerItem, Item.data, Item.itemData]
  · simp only [loadedFactor]
    rw [if_neg hn]
    simp [Item.data, Item.itemData]
  · simp only [loadedFactor]
    rw [if_neg hn]
    by_cases hs : sumLoop (fl (mkRat 1 f.layers.length)) f.layers = 1
    · simp [Item.fontColor, hs]
    · simp [Item.fontColor, hs]

/-- Witness for C1_load_equal_split at the "Water Access" factor with
3 layers. -/
theorem C1_witness :
    loadFacsAcc emptyRoot [facW] =
      (emptyRoot.appendChild (loadedFactor facW), Except.ok ()) ∧
    (∀ li ∈ (loadedFactor facW).childItems,
      li.data 2 =
        some (JValue.str (format2 (fl (mkRat 1 facW.layers.length))))) ∧
    (loadedFactor facW).data 2 =
      some (JValue.str (format2
        (sumLoop (fl (mkRat 1 facW.layers.length)) facW.layers))) ∧
    ((loadedFactor facW).fontColor = Color.green ↔
      sumLoop (fl (mkRat 1 facW.layers.length)) facW.layers = 1) :=
  C1_load_equal_split emptyRoot facW "Water Access" rfl (by decide)
    (by decide)

/-- Claim C2 is false on the code at a concrete edit: the effective
`setData` stores the raw string "0.5" (not "0.50" formatted to
2 decimals), and the owning factor's derived weight cell stays at the
stale "0.66" (not the recomputed "0.83") with its classification
untouched. -/
theorem C2_counterexample :
    (editChildWeight facTwoThirds 0 (JValue.str "0.5")).2 = true ∧
    ((editChildWeight facTwoThirds 0
      (JValue.str "0.5")).1.childItems.headD emptyRoot).data 2 =
      some (JValue.str "0.5") ∧
    (editChildWeight facTwoThirds 0 (JValue.str "0.5")).1.data 2 =
      some (JValue.str "0.66") ∧
    (editChildWeight facTwoThirds 0 (JValue.str "0.5")).1.fontColor =
      Color.black ∧
    ("0.5" : String) ≠ "0.50" ∧ ("0.66" : String) ≠ "0.83" :=
  ⟨rfl, rfl, rfl, rfl, by decide, by decide⟩

/-- Claim C2 (amended): the `setData` in effect (the second definition,
src/app.py:301, which shadows the validating one at line 149) stores the
raw value verbatim in the edited layer's weight cell and leaves the owning
factor's cells, color, and all other children untouched — the factor's
derived weight is not recomputed and becomes stale. -/
theorem C2_setData_effective (d : List JValue) (r : String) (c : Color)
    (ch : List Item) (i : Nat) (v : JValue) (l : Item)
    (hl : ch[i]? = some l) (hcol : 2 < l.itemData.length) :
    (editChildWeight (.mk d r c ch) i v).2 = true ∧
    (editChildWeight (.mk d r c ch) i v).1.itemData = d ∧
    (editChildWeight (.mk d r c ch) i v).1.fontColor = c ∧
    ((editChildWeight (.mk d r c ch) i v).1.childItems[i]? =
      some ((l.setData 2 v).1)) ∧
    (l.setData 2 v).1.data 2 = some v ∧
    (∀ j, j ≠ i →
      (editChildWeight (.mk d r c ch) i v).1.childItems[j]? = ch[j]?) := by
  have hi : i < ch.length := (List.getElem?_eq_some_iff.mp hl).1
  simp only [editChildWeight, hl, modelSetData, if_pos, if_true,
    Item.itemData, Item.fontColor, Item.childItems]
  refine ⟨(setData_two l v hcol).2, trivial, trivial, ?_,
    (setData_two l v hcol).1, ?_⟩
  · exact List.getElem?_set_eq_of_lt _ hi
  · intro j hj
    exact List.getElem?_set_ne (Ne.symm hj)

/-- Witness for C2_setData_effective at a one-layer factor. -/
theorem C2_witness :
    (editChildWeight (.mk [] "factor" Color.black [layThird "L"]) 0
      (JValue.str "0.5")).2 = true ∧
    (editChildWeight (.mk [] "factor" Color.black [layThird "L"]) 0
      (JValue.str "0.5")).1.itemData = [] ∧
    (editChildWeight (.mk [] "factor" Color.black [layThird "L"]) 0
      (JValue.str "0.5")).1.fontColor = Color.black ∧
    ((editChildWeight (.mk [] "factor" Color.black [layThird "L"]) 0
      (JValue.str "0.5")).1.childItems[0]? =
      some (((layThird "L").setData 2 (JValue.str "0.5")).1)) ∧
    ((layThird "L").setData 2 (JValue.str "0.5")).1.data 2 =
      some (JValue.str "0.5") ∧
    (∀ j, j ≠ 0 →
      (editChildWeight (.mk [] "factor" Color.black [layThird "L"]) 0
        (JValue.str "0.5")).1.childItems[j]? =
        ([layThird "L"] : List Item)[j]?) :=
  C2_setData_effective [] "factor" Color.black [layThird "L"] 0
    (JValue.str "0.5") (layThird "L") rfl (by decide)

/-- Claim C3 is false on the code at a concrete format-conforming
document: a layer entry with only its identifying "layer" key decodes
fine, but `to_json` then fails (it demands the full fixed attribute key
set), so `encode(decode(document))` reproduces nothing at all for this
document. -/
theorem C3_counterexample :
    (loadJsonData docBareLayer).2 = Except.ok () ∧
    to_json (loadJsonData docBareLayer).1 = Except.error () :=
  ⟨rfl, rfl⟩

/-- Claim C3 (amended): `encode(decode(document))` succeeds only when
every layer entry carries the full fixed attribute key set — a decodable
document with any layer missing one of those keys makes `to_json` fail —
and when it succeeds it preserves dimension names modulo the
title-case/lowercase normalization, factor and layer names, and the
values of the fixed attribute keys, but emits exactly the fixed keys,
dropping any other attribute present at decode time (such as
"weighting"). -/
theorem C3_roundtrip_fixed_keys :
    (∀ doc : JDoc, encodeWF doc = true →
      loadJsonData doc = (loadedRoot doc, Except.ok ()) ∧
      to_json (loadedRoot doc) = Except.ok (reencode doc)) ∧
    (∀ (doc : JDoc) (dm : JDimension) (f : JFactor) (l : JObj),
      decodeOK doc = true → dm ∈ doc.dimensions → f ∈ dm.factors →
      l ∈ f.layers → layerKeysOK l = false →
      to_json (loadJsonData doc).1 = Except.error ()) := by
  constructor
  · intro doc h
    simp only [encodeWF, Bool.and_eq_true] at h
    exact ⟨load_ok doc h.1, to_json_loadedRoot doc h.2⟩
  · intro doc dm f l hok hdm hf hl hk
    rw [load_ok doc hok]
    exact encode_error_of_missing doc dm f l hdm hf hl hk

/-- Witness for C3_roundtrip_fixed_keys: a document whose single layer
carries all fixed keys plus a "weighting" key (dropped on encode), and
one whose layer lacks the fixed keys (encode fails). -/
theorem C3_witness :
    (loadJsonData docFull = (loadedRoot docFull, Except.ok ()) ∧
     to_json (loadedRoot docFull) = Except.ok (reencode docFull)) ∧
    to_json (loadJsonData docBareLayer).1 = Except.error () :=
  ⟨C3_roundtrip_fixed_keys.1 docFull (by decide),
   C3_roundtrip_fixed_keys.2 docBareLayer
     ⟨some "d", [⟨some "f", [[("layer", JValue.str "L")]]⟩]⟩
     ⟨some "f", [[("layer", JValue.str "L")]]⟩
     [("layer", JValue.str "L")] (by decide)
     (by simp [docBareLayer]) (by simp) (by simp) (by decide)⟩

set_option maxRecDepth 8000 in
/-- Claim C4 is false on the code at a concrete 3-layer factor:
`auto_assign_layer_weightings` gives each layer "0.33" but sets the
factor's weight cell to the hardcoded "1.00" (not the formatted sum
"0.99" of the per-layer 2-decimal values) and colors it green
(Balanced). -/
theorem C4_counterexample :
    (auto_assign_layer_weightings facThreeTenths).data 2 =
      some (JValue.str "1.00") ∧
    (auto_assign_layer_weightings facThreeTenths).fontColor = Color.green ∧
    (auto_assign_layer_weightings facThreeTenths).childItems.map
      (fun l => l.data 2) =
      [some (JValue.str "0.33"), some (JValue.str "0.33"),
       some (JValue.str "0.33")] ∧
    ("1.00" : String) ≠ "0.99" ∧ Color.green ≠ Color.red :=
  ⟨rfl, rfl, rfl, by decide, by decide⟩

/-- Claim C4 (amended): for a factor with `n ≥ 1` layers,
`auto_assign_layer_weightings` assigns every layer the IEEE double
`fl(1/n)` formatted to 2 decimals, but sets the factor's derived weight
cell to the hardcoded string "1.00" and always classifies it balanced
(green), regardless of what the rounded per-layer values sum to. -/
theorem C4_auto_assign (d : List JValue) (r : String) (c : Color)
    (ch : List Item) (hne : ch ≠ []) (hd : 2 < d.length)
    (hch : ∀ l ∈ ch, 2 < l.itemData.length) :
    (auto_assign_layer_weightings (.mk d r c ch)).data 2 =
      some (JValue.str "1.00") ∧
    (auto_assign_layer_weightings (.mk d r c ch)).fontColor = Color.green ∧
    (auto_assign_layer_weightings (.mk d r c ch)).childItems.length =
      ch.length ∧
    ∀ l ∈ (auto_assign_layer_weightings (.mk d r c ch)).childItems,
      l.data 2 = some (JValue.str (format2 (fl (mkRat 1 ch.length)))) := by
  have hz : ¬ ch.length = 0 := fun h => hne (List.length_eq_zero.mp h)
  simp only [auto_assign_layer_weightings]
  rw [if_neg hz]
  simp only [Item.setData, if_pos hd, Item.withColor, Item.data,
    Item.itemData, Item.fontColor, Item.childItems, List.length_map]
  refine ⟨List.getElem?_set_eq_of_lt _ hd, trivial, trivial, ?_⟩
  intro l hli
  obtain ⟨l0, hl0, rfl⟩ := List.mem_map.mp hli
  exact (setData_two l0 _ (hch l0 hl0)).1

/-- Witness for C4_auto_assign at a 3-layer factor. -/
theorem C4_witness :
    (auto_assign_layer_weightings
      (.mk [JValue.str "F", JValue.str "🔴", JValue.str "0.30"] "factor"
        Color.red [layTenth "A", layTenth "B", layTenth "C"])).data 2 =
      some (JValue.str "1.00") ∧
    (auto_assign_layer_weightings
      (.mk [JValue.str "F", JValue.str "🔴", JValue.str "0.30"] "factor"
        Color.red [layTenth "A", layTenth "B",
          layTenth "C"])).fontColor = Color.green ∧
    (auto_assign_layer_weightings
      (.mk [JValue.str "F", JValue.str "🔴", JValue.str "0.30"] "factor"
        Color.red [layTenth "A", layTenth "B",
          layTenth "C"])).childItems.length =
      ([layTenth "A", layTenth "B", layTenth "C"] : List Item).length ∧
    ∀ l ∈ (auto_assign_layer_weightings
      (.mk [JValue.str "F", JValue.str "🔴", JValue.str "0.30"] "factor"
        Color.red [layTenth "A", layTenth "B",
          layTenth "C"])).childItems,
      l.data 2 = some (JValue.str (format2 (fl (mkRat 1
        ([layTenth "A", layTenth "B", layTenth "C"] : List Item).length)))) :=
  C4_auto_assign [JValue.str "F", JValue.str "🔴", JValue.str "0.30"]
    "factor" Color.red [layTenth "A", layTenth "B", layTenth "C"]
    (List.cons_ne_nil _ _) (by decide)
    (by
      intro l hl
      simp only [List.mem_cons, List.not_mem_nil, or_false] at hl
      rcases hl with rfl | rfl | rfl <;> decide)

/-- Claim C5 is false on the code at a concrete malformed document:
`loadJsonData` does fail (a raised `KeyError("name")`), but the
previously loaded tree does not remain in effect — the model's root was
replaced before building, so after the failed call it holds a partially
built tree, not the previous one. -/
theorem C5_counterexample :
    (loadIntoModel prevRoot badDoc).2 =
      Except.error (PyErr.keyError "name") ∧
    (loadIntoModel prevRoot badDoc).1 ≠ prevRoot := by
  refine ⟨rfl, ?_⟩
  intro h
  have h2 := congrArg firstDimName h
  rw [show firstDimName (loadIntoModel prevRoot badDoc).1 =
        some (JValue.str "Beta") from rfl,
      show firstDimName prevRoot = some (JValue.str "Alpha") from rfl] at h2
  injection h2 with h3
  injection h3 with h4
  exact absurd h4 (by decide)

/-- Claim C5 (amended): `loadJsonData` replaces the model's root before
reading the document, so the result never depends on the previous tree;
on a malformed document it raises `KeyError` and installs the partially
built tree (here: a fresh root already holding the new dimension whose
factor entry lacked a name). -/
theorem C5_load_not_atomic :
    (∀ (prev : Item) (doc : JDoc),
      loadIntoModel prev doc = loadJsonData doc) ∧
    (∀ (nm : String) (fac : JFactor) (fs : List JFactor)
      (ds : List JDimension), fac.name = none →
      loadJsonData ⟨⟨some nm, fac :: fs⟩ :: ds⟩ =
        (emptyRoot.appendChild
          (.mk [JValue.str (pyTitle nm), JValue.str "🔴", JValue.str ""]
            "dimension" Color.black []),
         Except.error (PyErr.keyError "name"))) := by
  refine ⟨fun _ _ => rfl, ?_⟩
  intro nm fac fs ds hname
  simp [loadJsonData, loadDimsAcc, loadFacsAcc, hname]

/-- Witness for C5_load_not_atomic. -/
theorem C5_witness :
    loadIntoModel prevRoot badDoc = loadJsonData badDoc ∧
    loadJsonData ⟨⟨some "beta", (⟨none, []⟩ : JFactor) :: []⟩ :: []⟩ =
      (emptyRoot.appendChild
        (.mk [JValue.str (pyTitle "beta"), JValue.str "🔴", JValue.str ""]
          "dimension" Color.black []),
       Except.error (PyErr.keyError "name")) :=
  ⟨C5_load_not_atomic.1 prevRoot badDoc,
   C5_load_not_atomic.2 "beta" ⟨none, []⟩ [] [] rfl⟩

/-- Claim C6 names the behavior of the first `setData`
(src/app.py:149-173), but that definition is shadowed by the second one
(src/app.py:301-305): at the failing input "abc" the effective `setData`
happily stores the unparseable string in the weight cell and returns
True, while the shadowed (intended) definition would reject it and leave
the item unchanged, exactly as the claim says. -/
theorem C6_shadowed_validation :
    modelSetData true (layThird "L") 2 (JValue.str "abc") =
      (.mk [JValue.str "L", JValue.str "🔴", JValue.str "abc",
            JValue.str "", JValue.obj []] "layer" Color.black [], true) ∧
    pyFloat "abc" = none ∧
    setData_first (layThird "L") 2 (JValue.str "abc") =
      (layThird "L", false) :=
  ⟨rfl, rfl, rfl⟩

/-- Claim C7 is false on the code: a layer entry in historical shape (a)
— a single-key object `{layerName: {...}}` with no "layer" key — makes
`loadJsonData` raise `KeyError("layer")`; only the flat shape (b) is
accepted. -/
theorem C7_counterexample :
    (loadJsonData docShapeA).2 = Except.error (PyErr.keyError "layer") ∧
    lookupKey [("Water points", JValue.obj [])] "layer" = none :=
  ⟨rfl, rfl⟩

/-- Claim C7 (amended): `loadJsonData` accepts exactly the flat layer
shape `{layer: name, ...attributes}`: every document whose dimensions and
factors are named and whose layer entries all carry a "layer" key decodes
without error (no other keys are required). -/
theorem C7_flat_shape_only (doc : JDoc) (h : decodeOK doc = true) :
    (loadJsonData doc).2 = Except.ok () := by
  rw [load_ok doc h]

/-- Witness for C7_flat_shape_only. -/
theorem C7_witness : (loadJsonData docFull).2 = Except.ok () :=
  C7_flat_shape_only docFull (by decide)

/-- Claim C8: `clear_layer_weightings` sets every layer's weight cell and
the factor's weight cell to "0.00" and always classifies the factor
unbalanced (red). -/
theorem C8_clear_all (d : List JValue) (r : String) (c : Color)
    (ch : List Item) (hd : 2 < d.length)
    (hch : ∀ l ∈ ch, 2 < l.itemData.length) :
    (clear_layer_weightings (.mk d r c ch)).data 2 =
      some (JValue.str "0.00") ∧
    (clear_layer_weightings (.mk d r c ch)).fontColor = Color.red ∧
    (clear_layer_weightings (.mk d r c ch)).childItems.length = ch.length ∧
    ∀ l ∈ (clear_layer_weightings (.mk d r c ch)).childItems,
      l.data 2 = some (JValue.str "0.00") := by
  simp only [clear_layer_weightings, Item.setData, if_pos hd,
    Item.withColor, Item.data, Item.itemData, Item.fontColor,
    Item.childItems, List.length_map]
  refine ⟨List.getElem?_set_eq_of_lt _ hd, trivial, trivial, ?_⟩
  intro l hli
  obtain ⟨l0, hl0, rfl⟩ := List.mem_map.mp hli
  exact (setData_two l0 _ (hch l0 hl0)).1

/-- Witness for C8_clear_all at a 3-layer factor. -/
theorem C8_witness :
    (clear_layer_weightings
      (.mk [JValue.str "F", JValue.str "🔴", JValue.str "0.30"] "factor"
        Color.red [layTenth "A", layTenth "B", layTenth "C"])).data 2 =
      some (JValue.str "0.00") ∧
    (clear_layer_weightings
      (.mk [JValue.str "F", JValue.str "🔴", JValue.str "0.30"] "factor"
        Color.red [layTenth "A", layTenth "B",
          layTenth "C"])).fontColor = Color.red ∧
    (clear_layer_weightings
      (.mk [JValue.str "F", JValue.str "🔴", JValue.str "0.30"] "factor"
        Color.red [layTenth "A", layTenth "B",
          layTenth "C"])).childItems.length =
      ([layTenth "A", layTenth "B", layTenth "C"] : List Item).length ∧
    ∀ l ∈ (clear_layer_weightings
      (.mk [JValue.str "F", JValue.str "🔴", JValue.str "0.30"] "factor"
        Color.red [layTenth "A", layTenth "B",
          layTenth "C"])).childItems,
      l.data 2 = some (JValue.str "0.00") :=
  C8_clear_all [JValue.str "F", JValue.str "🔴", JValue.str "0.30"]
    "factor" Color.red [layTenth "A", layTenth "B", layTenth "C"]
    (by decide)
    (by
      intro l hl
      simp only [List.mem_cons, List.not_mem_nil, or_false] at hl
      rcases hl with rfl | rfl | rfl <;> decide)

/-- Claim C9: `auto_assign_layer_weightings` on a zero-layer factor is a
no-op; a zero-layer factor loads with the default black color (never
green/balanced); `clear_layer_weightings` always leaves red; and the
effective `setData` never changes a classification color — so a
zero-layer factor is never classified balanced at load time or by any
weight-engine operation. -/
theorem C9_zero_layer_neutral :
    (∀ f : Item, f.childItems = [] → auto_assign_layer_weightings f = f) ∧
    (∀ (dimItem : Item) (fac : JFactor) (nm : String),
      fac.name = some nm → fac.layers = [] →
      loadFacsAcc dimItem [fac] =
        (dimItem.appendChild
          (.mk [JValue.str nm, JValue.str "🔴", JValue.str ""] "factor"
            Color.black []), Except.ok ()) ∧
      (Item.mk [JValue.str nm, JValue.str "🔴", JValue.str ""] "factor"
        Color.black []).fontColor ≠ Color.green) ∧
    (∀ f : Item, (clear_layer_weightings f).fontColor = Color.red) ∧
    (∀ (b : Bool) (it : Item) (col : Nat) (v : JValue),
      ((modelSetData b it col v).1).fontColor = it.fontColor) := by
  refine ⟨?_, ?_, ?_, ?_⟩
  · intro f h
    obtain ⟨d, r, c, ch⟩ := f
    simp only [Item.childItems] at h
    subst h
    simp [auto_assign_layer_weightings]
  · intro dimItem fac nm hname hlay
    refine ⟨?_, by simp [Item.fontColor]⟩
    simp [loadFacsAcc, hname, hlay]
  · intro f
    obtain ⟨d, r, c, ch⟩ := f
    simp only [clear_layer_weightings]
    exact fontColor_withColor _ _
  · intro b it col v
    cases b
    · rfl
    · simp only [modelSetData, if_true]
      exact setData_fontColor it col v

/-- Witness for C9_zero_layer_neutral. -/
theorem C9_witness :
    (auto_assign_layer_weightings
      (.mk [JValue.str "F", JValue.str "🔴", JValue.str ""] "factor"
        Color.black []) =
      .mk [JValue.str "F", JValue.str "🔴", JValue.str ""] "factor"
        Color.black []) ∧
    (loadFacsAcc emptyRoot [(⟨some "f", []⟩ : JFactor)] =
      (emptyRoot.appendChild
        (.mk [JValue.str "f", JValue.str "🔴", JValue.str ""] "factor"
          Color.black []), Except.ok ()) ∧
     (Item.mk [JValue.str "f", JValue.str "🔴", JValue.str ""] "factor"
       Color.black []).fontColor ≠ Color.green) ∧
    (clear_layer_weightings facTwoThirds).fontColor = Color.red ∧
    ((modelSetData true (layThird "L") 2 (JValue.str "x")).1).fontColor =
      (layThird "L").fontColor :=
  ⟨C9_zero_layer_neutral.1
    (.mk [JValue.str "F", JValue.str "🔴", JValue.str ""] "factor"
      Color.black []) rfl,
   C9_zero_layer_neutral.2.1 emptyRoot ⟨some "f", []⟩ "f" rfl rfl,
   C9_zero_layer_neutral.2.2.1 facTwoThirds,
   C9_zero_layer_neutral.2.2.2 true (layThird "L") 2 (JValue.str "x")⟩

/-- Claim C10: `to_json` succeeds only when every layer it visits stores
a column-4 attribute dict with the full fixed key set, and every tree
containing a layer created by `add_layer` (which stores no attribute
dict) makes `to_json` fail. -/
theorem C10_encode_requires_attrs :
    (∀ (root : Item) (j : JValue) (dim fac lay : Item),
      to_json root = Except.ok j →
      dim ∈ root.childItems → dim.role = "dimension" →
      fac ∈ dim.childItems → fac.role = "factor" →
      lay ∈ fac.childItems → lay.role = "layer" →
      hasAllFixedKeys lay = true) ∧
    (∀ (root dim fac : Item),
      dim ∈ root.childItems → dim.role = "dimension" →
      fac ∈ dim.childItems → fac.role = "factor" →
      newLayerItem ∈ fac.childItems →
      to_json root = Except.error ()) := by
  constructor
  · intro root j dim fac lay hj hdim hdrole hfac hfrole hlay hlrole
    have hroot : ∃ js, recurse_children root.childItems = .ok js := by
      unfold to_json at hj
      cases hc : recurse_children root.childItems with
      | error e => cases e; rw [hc] at hj; simp at hj
      | ok js => exact ⟨js, rfl⟩
    obtain ⟨js, hjs⟩ := hroot
    obtain ⟨vd, hvd⟩ :=
      recurse_children_ok_mem dim root.childItems js hjs hdim
    obtain ⟨dd, dr, dc, dch⟩ := dim
    simp only [Item.role] at hdrole
    subst hdrole
    obtain ⟨js2, hjs2⟩ :=
      recurse_ok_children_dim_fac dd _ dc dch vd hvd (Or.inl rfl)
    simp only [Item.childItems] at hfac
    obtain ⟨vf, hvf⟩ := recurse_children_ok_mem fac dch js2 hjs2 hfac
    obtain ⟨fd, fr, fc, fch⟩ := fac
    simp only [Item.role] at hfrole
    subst hfrole
    obtain ⟨js3, hjs3⟩ :=
      recurse_ok_children_dim_fac fd _ fc fch vf hvf (Or.inr rfl)
    simp only [Item.childItems] at hlay
    obtain ⟨vl, hvl⟩ := recurse_children_ok_mem lay fch js3 hjs3 hlay
    obtain ⟨ld, lr, lc, lch⟩ := lay
    simp only [Item.role] at hlrole
    subst hlrole
    exact recurse_layer_attrs ld lc lch vl hvl
  · intro root dim fac hdim hdrole hfac hfrole hnew
    have hlayer : recurse_tree newLayerItem = .error () := rfl
    obtain ⟨fd, fr, fc, fch⟩ := fac
    simp only [Item.role] at hfrole
    subst hfrole
    simp only [Item.childItems] at hnew
    have hfac_err : recurse_tree (.mk fd "factor" fc fch) = .error () :=
      recurse_error_dim_fac fd "factor" fc fch (Or.inr rfl) newLayerItem
        hnew hlayer
    obtain ⟨dd, dr, dc, dch⟩ := dim
    simp only [Item.role] at hdrole
    subst hdrole
    simp only [Item.childItems] at hfac
    have hdim_err : recurse_tree (.mk dd "dimension" dc dch) = .error () :=
      recurse_error_dim_fac dd "dimension" dc dch (Or.inl rfl) _ hfac
        hfac_err
    have hch := recurse_children_error _ hdim_err root.childItems hdim
    unfold to_json
    rw [hch]

/-- Witness for C10_encode_requires_attrs: an encodable tree whose layer
carries all fixed keys, and a tree containing an `add_layer` layer on
which `to_json` fails. -/
theorem C10_witness :
    hasAllFixedKeys layFull = true ∧
    to_json rootWithNewLayer = Except.error () := by
  constructor
  · exact C10_encode_requires_attrs.1 rootFull jFull dimFull facFull
      layFull rfl
      (by simp [rootFull, emptyRoot, Item.appendChild, Item.childItems])
      rfl (by simp [dimFull, Item.childItems]) rfl
      (by simp [facFull, Item.childItems]) rfl
  · exact C10_encode_requires_attrs.2 rootWithNewLayer dimWithNewLayer
      facWithNewLayer
      (by simp [rootWithNewLayer, emptyRoot, Item.appendChild,
        Item.childItems])
      rfl (by simp [dimWithNewLayer, Item.childItems]) rfl
      (by simp [facWithNewLayer, Item.childItems])

end Geest
